import Mathlib

/-!
Verification of the m3-python ICE bridge protocol stack.

This file gives a shallow embedding, in Lean 4, of the parts of the
m3-python library that the properties below are about:

* src/m3/ice.py   — the ICE session: framing (send_message), version
  negotiation (negotiate_version), capability/version gating
  (min_proto_version / capability decorators), the reader loop
  (communicator), the stream defraggers (d/b/B_defragger), mask-string
  conversion (string_to_masks / masks_to_strings), and the
  baud-divider encoding/decoding (ice_get_baudrate and the
  ice_set_baudrate_to_* family).
* src/m3/m3_gdb.py — the GDB controller: the PRC halt/resume state
  machine (GdbCtrl.PrcCtrl) and the software-breakpoint table
  (GdbCtrl.cmd_Z / cmd_z).

Python byte strings are modelled as List Nat (each element a byte value),
machine integers as Nat, and fallible code as Except or Option results.
Wire traffic is modelled by returning the list of frames written.
-/

namespace M3

/-- Decidable equality for Except results, used to evaluate the embedded
functions on concrete inputs. -/
instance {ε α : Type} [DecidableEq ε] [DecidableEq α] : DecidableEq (Except ε α) := fun x y =>
  match x, y with
  | .ok a, .ok b =>
    if h : a = b then .isTrue (by rw [h]) else .isFalse (by intro hc; cases hc; exact h rfl)
  | .error a, .error b =>
    if h : a = b then .isTrue (by rw [h]) else .isFalse (by intro hc; cases hc; exact h rfl)
  | .ok _, .error _ => .isFalse (by intro hc; cases hc)
  | .error _, .ok _ => .isFalse (by intro hc; cases hc)

/-- Error classes raised by src/m3/ice.py (class ICE).  ICE_Error is the
base class; `raise self.ICE_Error` in negotiate_version raises exactly
this base class, which is a distinct value from the VersionError
subclass.  StructError stands for Python struct.error raised by
struct.pack when a field does not fit in its format. -/
inductive IceError where
  | ICE_Error : IceError
  | NotConnectedError : IceError
  | FormatError : IceError
  | NAK_Error : IceError
  | VersionError (required current : Nat) : IceError
  | CapabilityError (required : Char) (capabilities : List Char) : IceError
  | StructError : IceError
deriving DecidableEq, Repr

/-! ## Frame sending: ICE.send_message (src/m3/ice.py lines 597-619) -/

/-- The serial-side state a send threads through: the next event_id
(ICE.event_id, incremented modulo 256 per send) and the stream of
pending ACK/NAK replies the peer will deliver through the sync_queue,
each a pair (ack_or_nak, payload). -/
structure WireState where
  eid : Nat
  responses : List (Nat × List Nat)
deriving DecidableEq, Repr

/-- ICE.send_message.  Checks the type is a single byte and the payload
is at most 255 bytes (FormatError otherwise), then writes the frame
header (type, event_id, length) followed by the payload, increments
event_id modulo 256, and blocks on the sync_queue for the (ack, payload)
reply.  The first component of the result is the list of frames this
call wrote to the serial device; on the FormatError paths nothing has
been written yet.  struct.pack("BBB", ...) would raise struct.error for
a type or explicit length above 255 (event_id is kept below 256 by the
modulo).  An exhausted response stream models a reply that never
arrives (sync_queue.get eventually failing). -/
def send_message (st : WireState) (msg_type : List Nat) (msg : List Nat)
    (lengthArg : Option Nat) : List (List Nat) × Except IceError ((Nat × List Nat) × WireState) :=
  if msg_type.length ≠ 1 then ([], .error .FormatError)
  else if msg.length > 255 then ([], .error .FormatError)
  else
    let t := msg_type.headD 0
    let l := match lengthArg with
      | none => msg.length
      | some n => n
    if 255 < t ∨ 255 < l then ([], .error .StructError)
    else
      let frame := [t, st.eid, l] ++ msg
      match st.responses with
      | [] => ([frame], .error .ICE_Error)
      | r :: rest => ([frame], .ok (r, ⟨(st.eid + 1) % 256, rest⟩))

/-! ## Version negotiation: ICE.negotiate_version (src/m3/ice.py lines 630-677) -/

/-- ICE.VERSIONS: the set of protocol versions this library supports. -/
def VERSIONS : List (Nat × Nat) := [(0, 1), (0, 2), (0, 3), (0, 4), (0, 5)]

/-- The version-selection loop of negotiate_version: self.major starts as
None; walking the peer-offered pairs in order, the first pair that is in
ICE.VERSIONS is recorded (the condition `self.major is None` keeps later
supported pairs from replacing it). -/
def chooseVersion : List (Nat × Nat) → Option (Nat × Nat)
  | [] => none
  | p :: rest => if p ∈ VERSIONS then some p else chooseVersion rest

/-- Splitting the version-probe reply into (major, minor) byte pairs, as
the struct.unpack("BB", resp[:2]) loop does. -/
def toPairs : List Nat → List (Nat × Nat)
  | a :: b :: rest => (a, b) :: toPairs rest
  | _ => []

/-- ICE.negotiate_version, from the version-probe reply onward: an empty
or odd-length reply is a FormatError; otherwise the first peer-offered
pair in ICE.VERSIONS is chosen; if none is, or the chosen major is not
0, the bare base class ICE_Error is raised (`raise self.ICE_Error`). -/
def negotiate_version (resp : List Nat) : Except IceError (Nat × Nat) :=
  if resp.length = 0 ∨ resp.length % 2 ≠ 0 then .error .FormatError
  else
    match chooseVersion (toPairs resp) with
    | none => .error .ICE_Error
    | some (major, minor) =>
      if major ≠ 0 then .error .ICE_Error
      else .ok (major, minor)

/-! ## Baud dividers (src/m3/ice.py lines 749-820) -/

/-- The divider each ice_set_baudrate_to_* function sends on the wire
for its nominal baud rate (for example ice_set_baudrate_to_115200 sends
divider 0x00AE, ice_set_baudrate_to_2000000 sends 0x000A, and
ice_set_baudrate_to_3_megabaud sends 0x0007). -/
def encoded_baud (baud : Nat) : Option Nat :=
  if baud = 115200 then some 0x00AE
  else if baud = 230400 then some (0x00AE / 2)
  else if baud = 460800 then some (0x00AE / 4)
  else if baud = 921600 then some (0x00AE / 8)
  else if baud = 1843200 then some (0x00AE / 16)
  else if baud = 2000000 then some 0x000A
  else if baud = 3000000 then some 0x0007
  else none

/-- The divider-to-baud decoding done by ICE.ice_get_baudrate on the
16-bit divider in the reply: 0x00AE yields the literal 1152200, 0x0007
yields 3000000, and every other divider (0x000A included) raises
FormatError ("Unknown baud divider?"). -/
def decoded_baud (div : Nat) : Except IceError Nat :=
  if div = 0x00AE then .ok 1152200
  else if div = 0x0007 then .ok 3000000
  else .error .FormatError

/-! ## The reader loop: ICE.communicator (src/m3/ice.py lines 363-417) -/

/-- One inbound frame as decoded by the reader loop: the three header
bytes (type, event_id, length) followed by the payload.  The reader
reads exactly `length` payload bytes, so the length field is msg.length. -/
structure Frame where
  msg_type : Nat
  event_id : Nat
  msg : List Nat
deriving DecidableEq, Repr

/-- The observable state of one ICE session as seen by the reader loop:
the last accepted event_id (ICE.last_event_id, initialized to -1), the
size-1 sync_queue, the set of types with a registered handler
(ICE.msg_handler keys), the advertised capability set, and the dispatch
and logging effects of processed frames. -/
structure CommState where
  last_event_id : Int
  sync_slot : Option (Nat × List Nat)
  handlers : List Nat
  capabilities : List Nat
  handled : List (Nat × Nat × Nat × List Nat)
  dup_logged : Bool
  unsolicited_dropped : Bool
  resync : Bool
deriving DecidableEq, Repr

/-- ICE.spawn_handler: look up the handler for the type; on a KeyError,
when the type is also absent from the capability set one byte is
drained for resynchronization, and in either KeyError case the frame is
only logged and dropped. -/
def spawn_handler (st : CommState) (t eid len : Nat) (msg : List Nat) : CommState :=
  if t ∈ st.handlers then { st with handled := st.handled ++ [(t, eid, len, msg)] }
  else if t ∈ st.capabilities then st
  else { st with resync := true }

/-- One iteration of the reader loop ICE.communicator, lines 384-414,
applied to a fully read frame.  When event_id equals last_event_id the
loop logs a warning that ends with the words "Dropping packet" and the
frame contents — but control then falls through to the type dispatch
below, so the frame is still processed; on a fresh event_id,
last_event_id is updated.  Types 0 and 1 go to the sync_queue (the put
on a full queue is modelled by the unsolicited_dropped flag); any other
type goes to spawn_handler. -/
def communicator_step (st : CommState) (f : Frame) : CommState :=
  let st1 :=
    if (f.event_id : Int) = st.last_event_id then { st with dup_logged := true }
    else { st with last_event_id := (f.event_id : Int) }
  if f.msg_type = 0 ∨ f.msg_type = 1 then
    match st1.sync_slot with
    | none => { st1 with sync_slot := some (f.msg_type, f.msg) }
    | some _ => { st1 with unsolicited_dropped := true }
  else spawn_handler st1 f.msg_type f.event_id f.msg.length f.msg

/-! ## Fragmented send: ICE._fragment_sender (src/m3/ice.py lines 691-728) -/

/-- The closing loop of _fragment_sender (the final, sub-255-byte
fragment): on a NAK with an empty body while retry is still available
the fragment is resent once; on a NAK with a nonempty body the
peer-reported accepted count is added; on an ACK the fragment length is
added (ord of an empty NAK body would raise in Python; headD 0 stands
in for ord here). -/
def fragment_last (t : Nat) (msg : List Nat) (sent : Nat) (st : WireState) (retry : Bool) :
    List (List Nat) × Except IceError (Nat × WireState) :=
  match send_message st [t] msg none with
  | (tr, .error e) => (tr, .error e)
  | (tr, .ok ((ack, resp), st')) =>
    if ack = 1 then
      if h : resp.length = 0 ∧ retry = true then
        let (tr2, r) := fragment_last t msg sent st' false
        (tr ++ tr2, r)
      else (tr, .ok (sent + resp.headD 0, st'))
    else (tr, .ok (sent + msg.length, st'))
termination_by (if retry then 1 else 0)
decreasing_by simp [h.2]

/-- The main loop of _fragment_sender: while at least 255 bytes remain,
send a 255-byte fragment; a NAK with an empty body consumes the single
retry but the loop still advances past the fragment; any other NAK
returns the bytes sent so far plus the peer-reported count; an ACK
restores the retry.  The sub-255 tail is handled by fragment_last. -/
def fragment_main (t : Nat) (st : WireState) (msg : List Nat) (retry : Bool) (sent : Nat) :
    List (List Nat) × Except IceError (Nat × WireState) :=
  if h : 255 ≤ msg.length then
    match send_message st [t] (msg.take 255) none with
    | (tr, .error e) => (tr, .error e)
    | (tr, .ok ((ack, resp), st')) =>
      if ack = 1 then
        if resp.length = 0 ∧ retry = true then
          let (tr2, r) := fragment_main t st' (msg.drop 255) false (sent + 255)
          (tr ++ tr2, r)
        else (tr, .ok (sent + resp.headD 0, st'))
      else
        let (tr2, r) := fragment_main t st' (msg.drop 255) true (sent + 255)
        (tr ++ tr2, r)
  else fragment_last t msg sent st retry
termination_by msg.length
decreasing_by
  all_goals simp [List.length_drop]; omega

/-- ICE._fragment_sender: splits the message at 255-byte boundaries,
starting with the retry available and a sent count of zero. -/
def fragment_sender (st : WireState) (t : Nat) (msg : List Nat) :
    List (List Nat) × Except IceError (Nat × WireState) :=
  fragment_main t st msg true 0

/-! ## Capability/version gating and ICE.mbus_send
(src/m3/ice.py lines 119-136 and 1172-1202) -/

/-- The min_proto_version decorator: before the wrapped call runs,
NotConnectedError if version negotiation has not set self.minor yet,
VersionError(required, current) if the negotiated minor is below the
requirement. -/
def min_proto_version_check (required : Nat) (minor : Option Nat) : Except IceError Unit :=
  match minor with
  | none => .error .NotConnectedError
  | some m => if m < required then .error (.VersionError required m) else .ok ()

/-- ICE.mbus_send with its decorator stack.  The decorators run in
order: min_proto_version("0.2") first, then capability('b') (the
capabilities attribute always exists, so its AttributeError fallback is
dead code).  The body re-checks the version via self.min_version(0.2),
rejects addresses longer than 4 bytes with FormatError, left-pads the
address with zero bytes to 4, and hands address ++ data to
_fragment_sender under type 'b' (byte 98).  The first component is the
list of frames written to the serial device by the call. -/
def mbus_send (minor : Option Nat) (caps : List Char) (addr data : List Nat) (st : WireState) :
    List (List Nat) × Except IceError (Nat × WireState) :=
  match min_proto_version_check 2 minor with
  | .error e => ([], .error e)
  | .ok () =>
    if 'b' ∉ caps then ([], .error (.CapabilityError 'b' caps))
    else
      match minor with
      | none => ([], .error .NotConnectedError)
      | some m =>
        if m < 2 then ([], .error (.VersionError 2 m))
        else if addr.length > 4 then ([], .error .FormatError)
        else fragment_sender st 98 ((List.replicate (4 - addr.length) 0 ++ addr) ++ data)

/-! ## Theorems for C1 (version negotiation) -/

/-- C1 counterexample: on the peer reply 0x00 0x01 0x00 0x02 the code
chooses (0,1), the first supported pair in peer order, even though
(0,2) is also shared and is the higher of the two; so the session does
not choose the highest entry supported by both sides. -/
theorem negotiate_version_not_highest :
    negotiate_version [0, 1, 0, 2] = .ok (0, 1) ∧
    (0, 2) ∈ VERSIONS ∧ (0, 2) ∈ toPairs [0, 1, 0, 2] ∧
    negotiate_version [0, 1, 0, 2] ≠ .ok (0, 2) := by
  decide

/-- C1 amended: on a nonempty, even-length version reply the session
chooses the first pair in the peer-offered order that is in the
library-supported set VERSIONS, and when the peer offers no supported
pair the negotiation fails with the base ICE_Error (not with
VersionError). -/
theorem negotiate_version_first_supported (resp : List Nat)
    (h0 : resp.length ≠ 0) (h2 : resp.length % 2 = 0) :
    negotiate_version resp =
      match (toPairs resp).find? (fun p => decide (p ∈ VERSIONS)) with
      | some v => .ok v
      | none => .error .ICE_Error := by
  have hchoose : ∀ l : List (Nat × Nat),
      chooseVersion l = l.find? (fun p => decide (p ∈ VERSIONS)) := by
    intro l
    induction l with
    | nil => rfl
    | cons p rest ih =>
      by_cases hp : p ∈ VERSIONS
      · simp [chooseVersion, List.find?, hp]
      · simp [chooseVersion, List.find?, hp, ih]
  have hmaj : ∀ v : Nat × Nat, v ∈ VERSIONS → v.1 = 0 := by decide
  unfold negotiate_version
  rw [if_neg (by simp [h0, h2])]
  rw [hchoose]
  cases hfind : (toPairs resp).find? (fun p => decide (p ∈ VERSIONS)) with
  | none => rfl
  | some v =>
    have hv : v ∈ VERSIONS := by
      have := List.find?_some hfind
      simpa using this
    obtain ⟨a, b⟩ := v
    have ha : a = 0 := hmaj (a, b) hv
    simp [ha]

/-- Witness for the amended C1 theorem at the concrete reply
0x00 0x01 0x00 0x02. -/
theorem negotiate_version_first_supported_witness :
    negotiate_version [0, 1, 0, 2] =
      match (toPairs [0, 1, 0, 2]).find? (fun p => decide (p ∈ VERSIONS)) with
      | some v => .ok v
      | none => .error .ICE_Error :=
  negotiate_version_first_supported [0, 1, 0, 2] (by decide) (by decide)

/-! ## Theorems for C4 (baud-divider round trip) -/

/-- C4: the baud round trip fails on the code: decoding the divider
0x00AE encoded for 115200 returns the literal 1152200 (a slip for
115200, contradicting the function docstring that it returns the baud
rate in Hz), and decoding the divider 0x000A encoded for 2000000 raises
FormatError because ice_get_baudrate has no 0x000A branch; only
3000000 round-trips. -/
theorem decoded_encoded_baud_facts :
    encoded_baud 115200 = some 0x00AE ∧
    decoded_baud 0x00AE = .ok 1152200 ∧ (1152200 : Nat) ≠ 115200 ∧
    encoded_baud 2000000 = some 0x000A ∧
    decoded_baud 0x000A = .error .FormatError ∧
    encoded_baud 3000000 = some 0x0007 ∧
    decoded_baud 0x0007 = .ok 3000000 := by
  decide

/-! ## Theorems for C2 (duplicate event_id handling) -/

/-- C2: the reader loop does not actually reject a frame whose event_id
equals the previously accepted one.  With last accepted event_id 5 and
an empty reply slot, an inbound ACK frame with event_id 5 is logged as
a duplicate ("Dropping packet") yet still placed in the synchronous
reply slot, and an inbound frame of handled type 98 with event_id 5 is
still dispatched to its handler. -/
theorem communicator_duplicate_still_processed :
    communicator_step
        ⟨5, none, [98], [], [], false, false, false⟩ ⟨0, 5, [7]⟩ =
      ⟨5, some (0, [7]), [98], [], [], true, false, false⟩ ∧
    communicator_step
        ⟨5, none, [98], [], [], false, false, false⟩ ⟨98, 5, [1, 2]⟩ =
      ⟨5, none, [98], [], [(98, 5, 2, [1, 2])], true, false, false⟩ := by
  decide

/-! ## Theorems for C6 (capability/version gating of mbus_send) -/

/-- C6: before version negotiation mbus_send fails with
NotConnectedError, and on a session negotiated at a minor below 2 it
fails with VersionError(required 2, current minor); in both cases no
frame is written to the serial device.  In particular a session at
minor 1 gets VersionError(2, 1) and an empty write trace. -/
theorem mbus_send_gated (caps : List Char) (addr data : List Nat)
    (st : WireState) (m : Nat) (hm : m < 2) :
    mbus_send none caps addr data st = ([], .error .NotConnectedError) ∧
    mbus_send (some m) caps addr data st = ([], .error (.VersionError 2 m)) := by
  constructor
  · rfl
  · simp [mbus_send, min_proto_version_check, hm]

/-- Witness for C6 at a minor-1 session with the legacy capability set
and a concrete one-byte address. -/
theorem mbus_send_gated_witness :
    mbus_send (some 1) ['V', 'v', 'X', 'x'] [0x5a] [1, 2] ⟨0, []⟩ =
      ([], .error (.VersionError 2 1)) :=
  (mbus_send_gated ['V', 'v', 'X', 'x'] [0x5a] [1, 2] ⟨0, []⟩ 1 (by decide)).2

/-! ## Theorems for C7 (frame length field) -/

/-- C7: a frame that send_message writes carries a length field equal
to the payload length, which is at most 255; and a payload longer than
255 bytes fails with FormatError with nothing written (all in-library
calls leave the optional length argument at its None default). -/
theorem send_message_length_field (st : WireState) (t : Nat) (msg : List Nat)
    (ht : t ≤ 255) :
    (msg.length ≤ 255 →
      (send_message st [t] msg none).1 = [[t, st.eid, msg.length] ++ msg]) ∧
    (255 < msg.length →
      send_message st [t] msg none = ([], .error .FormatError)) := by
  constructor
  · intro hlen
    unfold send_message
    simp [Nat.not_lt.mpr hlen, Nat.not_lt.mpr ht]
    cases st.responses <;> simp
  · intro hlen
    unfold send_message
    simp [Nat.lt_iff_add_one_le.mp hlen]
    omega

/-- Witness for C7: sending type 86 with a three-byte payload at
event_id 0 writes the single frame 56 00 03 01 02 03. -/
theorem send_message_length_field_witness :
    (send_message ⟨0, []⟩ [86] [1, 2, 3] none).1 = [[86, 0, 3] ++ [1, 2, 3]] :=
  (send_message_length_field ⟨0, []⟩ 86 [1, 2, 3] (by decide)).1 (by decide)

/-! ## Target halt/resume: GdbCtrl.PrcCtrl (src/m3/m3_gdb.py lines 303-462) -/

/-- The PrcCtrl state: the resume-flag address (None when not halted),
the register-file base address held by the HaltRegFile
(RegFile.base_addr, None until the first halt notification), whether a
halt callback is currently registered (halt_cb), and the MBus register
and memory writes issued so far (write_reg pairs and write_mem
triples (addr, value, size)). -/
structure PrcState where
  flag_addr : Option Nat
  regfile_base : Option Nat
  halt_cb : Bool
  reg_writes : List (Nat × Nat)
  mem_writes : List (Nat × Nat × Nat)
deriving DecidableEq, Repr

/-- The operations that mutate the PrcCtrl state: halt(cb) (cmd__ctrlc_
passes a callback, cmd_D passes None), the halt notification processed
by _halt_thread after both 0xe0 messages arrive (carrying the flag
address then the register-file base), and resume(cb). -/
inductive PrcOp where
  | halt (cb : Bool) : PrcOp
  | haltNotify (flag reg : Nat) : PrcOp
  | resume (cb : Bool) : PrcOp
deriving DecidableEq, Repr

/-- The initial PrcCtrl state built by PrcCtrl.__init__: no flag
address, no register-file base, no callback, nothing written. -/
def prcInit : PrcState := ⟨none, none, false, [], []⟩

/-- One PrcCtrl operation; none models a failed assert.
halt asserts flag_addr is None, stores the callback, and writes 1 to
MBus register 7.  The halt notification updates the register-file base,
records the flag address, fires and clears the callback.  resume
asserts flag_addr is set and halt_cb is None, stores the new callback,
writes 0x01 to *flag_addr as a 32-bit store, and clears flag_addr —
and only flag_addr: the register-file base is left as it was. -/
def prcStep (st : PrcState) : PrcOp → Option PrcState
  | .halt cb =>
    match st.flag_addr with
    | some _ => none
    | none => some { st with halt_cb := cb, reg_writes := st.reg_writes ++ [(7, 1)] }
  | .haltNotify flag reg =>
    some { st with regfile_base := some reg, flag_addr := some flag, halt_cb := false }
  | .resume cb =>
    match st.flag_addr with
    | none => none
    | some f =>
      if st.halt_cb then none
      else some { st with halt_cb := cb,
                          mem_writes := st.mem_writes ++ [(f, 0x01, 32)],
                          flag_addr := none }

/-- Running a sequence of PrcCtrl operations from a state. -/
def prcRun (st : PrcState) : List PrcOp → Option PrcState
  | [] => some st
  | op :: ops =>
    match prcStep st op with
    | none => none
    | some st' => prcRun st' ops

/-! ## Theorems for C3 (halt-state invariant and resume) -/

/-- C3 counterexample: a halt notification followed by resume leaves
regfile_base = some 0x200 while flag_addr = none, so resume does not
clear regfile_base and the claimed invariant regfile_base.isSome →
flag_addr.isSome fails in a reachable state. -/
theorem prc_resume_keeps_regfile_base :
    prcRun prcInit [.haltNotify 0x100 0x200, .resume false] =
      some ⟨none, some 0x200, false, [], [(0x100, 0x01, 32)]⟩ ∧
    (Option.some (0x200 : Nat)).isSome = true ∧
    (Option.none : Option Nat).isSome = false := by
  decide

/-- The invariant the code does keep on the PrcCtrl state. -/
def prcInv (st : PrcState) : Prop := st.flag_addr.isSome → st.regfile_base.isSome

/-- A single PrcCtrl operation preserves prcInv. -/
theorem prcStep_inv {st st' : PrcState} (hinv : prcInv st) {op : PrcOp}
    (h : prcStep st op = some st') : prcInv st' := by
  cases op with
  | halt cb =>
    unfold prcStep at h
    cases hflag : st.flag_addr with
    | some f => rw [hflag] at h; cases h
    | none =>
      rw [hflag] at h
      cases h
      intro hs
      simp [hflag] at hs
  | haltNotify flag reg =>
    unfold prcStep at h
    cases h
    intro _
    simp
  | resume cb =>
    unfold prcStep at h
    cases hflag : st.flag_addr with
    | none => rw [hflag] at h; cases h
    | some f =>
      rw [hflag] at h
      by_cases hcb : st.halt_cb
      · simp [hcb] at h
      · simp [hcb] at h
        cases h
        intro hs
        simp at hs

/-- C3 amended: in every state reachable by PrcCtrl operations, a set
flag_addr implies a set regfile_base (the converse of the claimed
implication), and from any reachable halted state with no pending
callback, resume appends the 32-bit store of 0x01 to the flag address,
clears flag_addr, and leaves regfile_base unchanged. -/
theorem prc_reachable_inv (ops : List PrcOp) (st : PrcState)
    (hrun : prcRun prcInit ops = some st) :
    prcInv st ∧
    ∀ f cb st', st.flag_addr = some f → st.halt_cb = false →
      prcStep st (.resume cb) = some st' →
      st'.mem_writes = st.mem_writes ++ [(f, 0x01, 32)] ∧
      st'.flag_addr = none ∧ st'.regfile_base = st.regfile_base := by
  constructor
  · have hgen : ∀ (l : List PrcOp) (s s' : PrcState), prcInv s →
        prcRun s l = some s' → prcInv s' := by
      intro l
      induction l with
      | nil => intro s s' hs h; cases h; exact hs
      | cons op rest ih =>
        intro s s' hs h
        unfold prcRun at h
        cases hstep : prcStep s op with
        | none => rw [hstep] at h; cases h
        | some s1 =>
          rw [hstep] at h
          exact ih s1 s' (prcStep_inv hs hstep) h
    exact hgen ops prcInit st (by intro h; simp [prcInit] at h) hrun
  · intro f cb st' hflag hcb hstep
    unfold prcStep at hstep
    rw [hflag, hcb] at hstep
    simp at hstep
    cases hstep
    refine ⟨rfl, rfl, rfl⟩

/-- Witness for C3 amended, at the reachable state right after a halt
notification with flag address 1 and register-file base 2. -/
theorem prc_reachable_inv_witness :
    prcInv ⟨some 1, some 2, false, [], []⟩ ∧
    (⟨none, some 2, false, [], [(1, 0x01, 32)]⟩ : PrcState).mem_writes =
      ([] : List (Nat × Nat × Nat)) ++ [(1, 0x01, 32)] := by
  refine ⟨(prc_reachable_inv [.haltNotify 1 2] ⟨some 1, some 2, false, [], []⟩ (by decide)).1, ?_⟩
  have h := (prc_reachable_inv [.haltNotify 1 2] ⟨some 1, some 2, false, [], []⟩
    (by decide)).2 1 false ⟨none, some 2, false, [], [(1, 0x01, 32)]⟩ rfl rfl (by decide)
  exact h.1

/-! ## Software breakpoints: GdbCtrl.cmd_Z / cmd_z
(src/m3/m3_gdb.py lines 582-599 and 742-759) -/

/-- The GDB controller state the breakpoint commands act on: the
displaced-instructions table (an association list standing for the
Python dict displaced_insts, mapping (addr, size_bits) to the original
instruction), and target memory viewed at 16-bit granularity — mem a is
the halfword read or force-written through this.mem[(a, 16)]. -/
structure GdbState where
  displaced : List ((Nat × Nat) × Nat)
  mem : Nat → Nat

/-- GdbCtrl.cmd_Z for a Z0,addr,2 packet (brType 0 and size 2 are
asserted; size is converted to 16 bits).  If (addr, 16) is already a
key of the table the command only logs and replies OK; otherwise it
records the current instruction and force-writes the 0xdf01 SVC #01
trap. -/
def cmd_Z (st : GdbState) (addr : Nat) : GdbState × String :=
  if (addr, 16) ∈ st.displaced.map Prod.fst then (st, "OK")
  else
    ({ displaced := ((addr, 16), st.mem addr) :: st.displaced,
       mem := fun a => if a = addr then 0xdf01 else st.mem a }, "OK")

/-- GdbCtrl.cmd_z for a z0,addr,2 packet: if (addr, 16) is not a key
the command only logs and replies OK; otherwise it restores the
recorded instruction and deletes the entry. -/
def cmd_z (st : GdbState) (addr : Nat) : GdbState × String :=
  match st.displaced.find? (fun e => e.1 = (addr, 16)) with
  | none => (st, "OK")
  | some e =>
    ({ displaced := st.displaced.filter (fun e' => ¬ (e'.1 = (addr, 16))),
       mem := fun a => if a = addr then e.2 else st.mem a }, "OK")

/-- A breakpoint command stream: insert (Z0,addr,2) or remove
(z0,addr,2). -/
inductive GdbOp where
  | Z (addr : Nat) : GdbOp
  | z (addr : Nat) : GdbOp

/-- Running a sequence of breakpoint commands, discarding the OK
replies. -/
def gdbRun (st : GdbState) : List GdbOp → GdbState
  | [] => st
  | .Z a :: ops => gdbRun (cmd_Z st a).1 ops
  | .z a :: ops => gdbRun (cmd_z st a).1 ops

/-- The empty controller state: no displaced instructions, all-zero
memory. -/
def gdbInit : GdbState := ⟨[], fun _ => 0⟩

/-- Two 16-bit regions (addr, addr+1 bytes each) share a byte of target
memory exactly when their addresses differ by at most one. -/
def regionsOverlap (a b : Nat) : Bool := a = b ∨ a = b + 1 ∨ b = a + 1

/-! ## Theorems for C9 (displaced-table overlap invariant) -/

/-- C9 counterexample: inserting breakpoints at 0x100 and 0x101 yields
two distinct table entries whose 16-bit regions share the byte at
0x101, so the no-overlap invariant does not hold in every reachable
state. -/
theorem displaced_entries_can_overlap :
    (gdbRun gdbInit [.Z 0x100, .Z 0x101]).displaced.map Prod.fst =
      [(0x101, 16), (0x100, 16)] ∧
    regionsOverlap 0x101 0x100 = true ∧
    ((0x101, 16) : Nat × Nat) ≠ (0x100, 16) := by
  decide

/-- The keys of the displaced table. -/
def displacedKeys (st : GdbState) : List (Nat × Nat) := st.displaced.map Prod.fst

/-- cmd_Z preserves distinctness of the table keys. -/
theorem cmd_Z_nodup {st : GdbState} (h : (displacedKeys st).Nodup) (addr : Nat) :
    (displacedKeys (cmd_Z st addr).1).Nodup := by
  unfold cmd_Z
  by_cases hmem : (addr, 16) ∈ st.displaced.map Prod.fst
  · simpa [hmem, displacedKeys] using h
  · rw [if_neg hmem]
    unfold displacedKeys
    simp only [List.map_cons]
    exact List.nodup_cons.mpr ⟨hmem, h⟩

/-- cmd_z preserves distinctness of the table keys. -/
theorem cmd_z_nodup {st : GdbState} (h : (displacedKeys st).Nodup) (addr : Nat) :
    (displacedKeys (cmd_z st addr).1).Nodup := by
  unfold cmd_z
  cases hfind : st.displaced.find? (fun e => e.1 = (addr, 16)) with
  | none => simpa [displacedKeys] using h
  | some e =>
    simp only
    unfold displacedKeys at h ⊢
    exact List.Nodup.sublist (List.Sublist.map Prod.fst (List.filter_sublist _)) h

/-- C9 amended: in every state reachable from the empty table by Z0 and
z0 commands, the displaced-instructions table is a map with pairwise
distinct (addr, size) keys (the dict semantics the code relies on);
16-bit entries at adjacent addresses may nevertheless overlap in
memory. -/
theorem displaced_keys_nodup (ops : List GdbOp) :
    (displacedKeys (gdbRun gdbInit ops)).Nodup := by
  have hgen : ∀ (l : List GdbOp) (s : GdbState), (displacedKeys s).Nodup →
      (displacedKeys (gdbRun s l)).Nodup := by
    intro l
    induction l with
    | nil => intro s hs; exact hs
    | cons op rest ih =>
      intro s hs
      cases op with
      | Z a => exact ih _ (cmd_Z_nodup hs a)
      | z a => exact ih _ (cmd_z_nodup hs a)
  exact hgen ops gdbInit (by simp [displacedKeys, gdbInit])

/-! ## Theorems for C10 (breakpoint insertion idempotence) -/

/-- C10: a Z0,addr,2 command for an address that already has a table
entry leaves the whole state — table and target memory — unchanged and
still replies OK, so the recorded original instruction is never
overwritten with the trap. -/
theorem cmd_Z_idempotent (st : GdbState) (addr : Nat)
    (h : (addr, 16) ∈ st.displaced.map Prod.fst) :
    cmd_Z st addr = (st, "OK") := by
  unfold cmd_Z
  rw [if_pos h]

/-- Witness for C10: re-inserting the breakpoint at address 4, whose
entry records original instruction 0x4770, changes nothing. -/
theorem cmd_Z_idempotent_witness :
    cmd_Z ⟨[((4, 16), 0x4770)], fun _ => 0⟩ 4 =
      (⟨[((4, 16), 0x4770)], fun _ => 0⟩, "OK") :=
  cmd_Z_idempotent ⟨[((4, 16), 0x4770)], fun _ => 0⟩ 4 (by decide)

/-! ## Stream defraggers: ICE.d/b/B_defragger (src/m3/ice.py lines 452-527) -/

/-- One inbound fragment on a fragmented stream, as delivered to a
defragger by spawn_handler: its event_id and payload (the length
argument is the payload length). -/
structure Frag where
  event_id : Nat
  msg : List Nat
deriving DecidableEq, Repr

/-- A message emitted to the synthetic '+' handler: the type string it
is dispatched under, the event_id it is assigned, the length argument,
and the assembled payload. -/
structure Emit where
  typ : String
  event_id : Nat
  length : Nat
  payload : List Nat
deriving DecidableEq, Repr

/-- One call of a defragger (d_defragger, b_defragger and B_defragger
share this body, with plusType "d+", "b+", "B+" respectively): the
fragment is appended to the stream buffer; if its length is not 255 the
buffer is forwarded under the synthetic type with the event_id of this
closing fragment and the buffer is reset, otherwise the buffer is kept. -/
def defragStep (plusType : String) (buf : List Nat) (f : Frag) : List Nat × List Emit :=
  let buf' := buf ++ f.msg
  if f.msg.length ≠ 255 then ([], [⟨plusType, f.event_id, buf'.length, buf'⟩])
  else (buf', [])

/-- Feeding a sequence of fragments through a defragger, collecting the
emitted messages. -/
def defragRun (plusType : String) (buf : List Nat) : List Frag → List Nat × List Emit
  | [] => (buf, [])
  | f :: rest =>
    ((defragRun plusType (defragStep plusType buf f).1 rest).1,
     (defragStep plusType buf f).2 ++ (defragRun plusType (defragStep plusType buf f).1 rest).2)

/-! ## Theorems for C5 (defragmenter closure) -/

/-- Defragmenter closure from an arbitrary starting buffer: length-255
fragments accumulate and the first shorter fragment flushes everything
as a single emission carrying its event_id, leaving the buffer empty. -/
theorem defragRun_closure (pt : String) (buf : List Nat) (fs : List Frag) (lastF : Frag)
    (h255 : ∀ f ∈ fs, f.msg.length = 255) (hlast : lastF.msg.length < 255) :
    defragRun pt buf (fs ++ [lastF]) =
      ([], [⟨pt, lastF.event_id, (buf ++ ((fs.map Frag.msg).flatten ++ lastF.msg)).length,
            buf ++ ((fs.map Frag.msg).flatten ++ lastF.msg)⟩]) := by
  induction fs generalizing buf with
  | nil =>
    simp [defragRun, defragStep, Nat.ne_of_lt hlast]
  | cons f fs ih =>
    have hf : f.msg.length = 255 := h255 f (List.mem_cons_self f fs)
    have hrest : ∀ g ∈ fs, g.msg.length = 255 :=
      fun g hg => h255 g (List.mem_cons_of_mem f hg)
    have hstep : defragStep pt buf f = (buf ++ f.msg, []) := by
      unfold defragStep
      rw [if_neg (by simp [hf])]
    rw [List.cons_append]
    simp only [defragRun, hstep, ih (buf ++ f.msg) hrest]
    simp [List.append_assoc]

/-- C5: starting from an empty buffer, one or more 255-byte fragments
followed by exactly one shorter fragment produce exactly one combined
message under the synthetic '+' type, whose length is the sum of the
fragment lengths, carrying the event_id of the closing fragment, with
the buffer empty afterwards (stated for the MBus stream type "b+"; the
d and B defraggers share the same body). -/
theorem b_defragger_closure (fs : List Frag) (lastF : Frag) (hne : fs ≠ [])
    (h255 : ∀ f ∈ fs, f.msg.length = 255) (hlast : lastF.msg.length < 255) :
    (defragRun "b+" [] (fs ++ [lastF])).1 = [] ∧
    (defragRun "b+" [] (fs ++ [lastF])).2 =
      [⟨"b+", lastF.event_id, ((fs.map Frag.msg).flatten ++ lastF.msg).length,
        (fs.map Frag.msg).flatten ++ lastF.msg⟩] ∧
    ((fs.map Frag.msg).flatten ++ lastF.msg).length =
      ((fs ++ [lastF]).map (fun f => f.msg.length)).sum := by
  rw [defragRun_closure "b+" [] fs lastF h255 hlast]
  refine ⟨rfl, by simp, ?_⟩
  simp [List.length_flatten, List.map_map, Function.comp_def]

/-- Witness for C5: one 255-byte fragment (event 3) closed by a 2-byte
fragment (event 9) emits one 257-byte message under event 9. -/
theorem b_defragger_closure_witness :
    (defragRun "b+" [] ([⟨3, List.replicate 255 7⟩] ++ [⟨9, [1, 2]⟩])).1 = [] ∧
    (defragRun "b+" [] ([⟨3, List.replicate 255 7⟩] ++ [⟨9, [1, 2]⟩])).2 =
      [⟨"b+", (⟨9, [1, 2]⟩ : Frag).event_id,
        ((([⟨3, List.replicate 255 7⟩] : List Frag).map Frag.msg).flatten ++
          (⟨9, [1, 2]⟩ : Frag).msg).length,
        (([⟨3, List.replicate 255 7⟩] : List Frag).map Frag.msg).flatten ++
          (⟨9, [1, 2]⟩ : Frag).msg⟩] ∧
    ((([⟨3, List.replicate 255 7⟩] : List Frag).map Frag.msg).flatten ++
        (⟨9, [1, 2]⟩ : Frag).msg).length =
      (([⟨3, List.replicate 255 7⟩] ++ [⟨9, [1, 2]⟩] : List Frag).map
        (fun f => f.msg.length)).sum :=
  b_defragger_closure [⟨3, List.replicate 255 7⟩] ⟨9, [1, 2]⟩
    (List.cons_ne_nil _ _)
    (by
      intro f hf
      rw [List.mem_singleton] at hf
      subst hf
      exact List.length_replicate _ _)
    (by decide)

/-! ## Mask strings: ICE.string_to_masks / masks_to_strings
(src/m3/ice.py lines 419-450) -/

/-- The character loop of ICE.string_to_masks over the space-stripped
string: idx starts at the string length and is decremented before each
character is folded into the (ones, zeros) accumulator; a character
outside 01xX raises FormatError. -/
def stmGo (acc : Nat × Nat) : List Char → Nat → Except IceError (Nat × Nat)
  | [], _ => .ok acc
  | c :: rest, idx =>
    let i := idx - 1
    if c = '1' then stmGo (acc.1 ||| (1 <<< i), acc.2) rest i
    else if c = '0' then stmGo (acc.1, acc.2 ||| (1 <<< i)) rest i
    else if c = 'x' ∨ c = 'X' then stmGo acc rest i
    else .error .FormatError

/-- ICE.string_to_masks: spaces are removed first, then the characters
are folded left to right with descending bit indices. -/
def string_to_masks (s : List Char) : Except IceError (Nat × Nat) :=
  let t := s.filter (fun c => c ≠ ' ')
  stmGo (0, 0) t t.length

/-- ICE.masks_to_strings: for each bit position l below the requested
length, prepend the character for bit l of (ones, zeros); a position
required both 1 and 0 raises FormatError.  The recursion peels the
highest position, which the loop reaches last. -/
def masks_to_strings (ones zeros : Nat) : Nat → Except IceError (List Char)
  | 0 => .ok []
  | n + 1 =>
    match masks_to_strings ones zeros n with
    | .error e => .error e
    | .ok s =>
      let o := ones.testBit n
      let z := zeros.testBit n
      if o ∧ z then .error .FormatError
      else .ok ((if o then '1' else if z then '0' else 'x') :: s)

/-! ## Theorems for C8 (mask-string round trip) -/

/-- C8 counterexample: the claimed alphabet admits spaces, but
string_to_masks strips them, so for s = "1 0" of length 3 the round
trip returns "x10", not s. -/
theorem masks_round_trip_fails_on_space :
    string_to_masks ['1', ' ', '0'] = .ok (2, 1) ∧
    masks_to_strings 2 1 3 = .ok ['x', '1', '0'] ∧
    (['x', '1', '0'] : List Char) ≠ ['1', ' ', '0'] := by
  decide

/-- Folding from a nonzero accumulator only ors the accumulator into
the result of folding from zero. -/
theorem stmGo_acc (s : List Char) : ∀ (idx a b : Nat),
    stmGo (a, b) s idx =
      (stmGo (0, 0) s idx).map (fun p => (a ||| p.1, b ||| p.2)) := by
  induction s with
  | nil => intro idx a b; simp [stmGo, Except.map]
  | cons c rest ih =>
    intro idx a b
    by_cases h1 : c = '1'
    · simp only [stmGo, if_pos h1]
      rw [ih (idx - 1) (a ||| 1 <<< (idx - 1)) b, ih (idx - 1) (0 ||| 1 <<< (idx - 1)) 0]
      cases stmGo (0, 0) rest (idx - 1) with
      | error e => rfl
      | ok p => simp [Except.map, Nat.lor_assoc, Nat.zero_or]
    · by_cases h0 : c = '0'
      · simp only [stmGo, if_neg h1, if_pos h0]
        rw [ih (idx - 1) a (b ||| 1 <<< (idx - 1)), ih (idx - 1) 0 (0 ||| 1 <<< (idx - 1))]
        cases stmGo (0, 0) rest (idx - 1) with
        | error e => rfl
        | ok p => simp [Except.map, Nat.lor_assoc, Nat.zero_or]
      · by_cases hx : c = 'x' ∨ c = 'X'
        · simp only [stmGo, if_neg h1, if_neg h0, if_pos hx]
          exact ih (idx - 1) a b
        · simp only [stmGo, if_neg h1, if_neg h0, if_neg hx]
          rfl

/-- masks_to_strings only looks at the bits below the requested length. -/
theorem masks_to_strings_congr : ∀ (n o z o2 z2 : Nat),
    (∀ l, l < n → o.testBit l = o2.testBit l) →
    (∀ l, l < n → z.testBit l = z2.testBit l) →
    masks_to_strings o z n = masks_to_strings o2 z2 n := by
  intro n
  induction n with
  | zero => intro o z o2 z2 _ _; rfl
  | succ n ih =>
    intro o z o2 z2 ho hz
    simp only [masks_to_strings]
    rw [ih o z o2 z2 (fun l hl => ho l (Nat.lt_succ_of_lt hl))
      (fun l hl => hz l (Nat.lt_succ_of_lt hl))]
    rw [ho n (Nat.lt_succ_self n), hz n (Nat.lt_succ_self n)]

/-- Round trip of the fold itself on space-free legal strings, with the
bit-range bounds needed for the induction. -/
theorem stm_round_trip (s : List Char) (h : ∀ c ∈ s, c = '0' ∨ c = '1' ∨ c = 'x') :
    ∃ o z, stmGo (0, 0) s s.length = .ok (o, z) ∧
      o < 2 ^ s.length ∧ z < 2 ^ s.length ∧
      masks_to_strings o z s.length = .ok s := by
  induction s with
  | nil => exact ⟨0, 0, rfl, by decide, by decide, rfl⟩
  | cons c rest ih =>
    obtain ⟨o', z', hstm, hob, hzb, hmts⟩ :=
      ih (fun d hd => h d (List.mem_cons_of_mem c hd))
    have hpow : (2 : Nat) ^ rest.length < 2 ^ (rest.length + 1) :=
      Nat.pow_lt_pow_succ (by decide)
    have hzero : ∀ l, l < rest.length →
        Nat.testBit (2 ^ rest.length) l = false := by
      intro l hl
      exact Nat.testBit_two_pow_of_ne (Nat.ne_of_gt hl)
    rcases h c (List.mem_cons_self c rest) with h0 | h1 | hx
    · -- c = '0'
      subst h0
      refine ⟨o', 2 ^ rest.length ||| z', ?_, ?_, ?_, ?_⟩
      · have hred : stmGo (0, 0) ('0' :: rest) ('0' :: rest).length =
            stmGo (0, 0 ||| 1 <<< rest.length) rest rest.length := by
          simp [stmGo]
        rw [hred, stmGo_acc, hstm]
        simp [Except.map, Nat.one_shiftLeft]
      · exact Nat.lt_trans hob hpow
      · exact Nat.or_lt_two_pow hpow (Nat.lt_trans hzb hpow)
      · have hcong : masks_to_strings o' (2 ^ rest.length ||| z') rest.length =
            masks_to_strings o' z' rest.length := by
          refine masks_to_strings_congr rest.length _ _ _ _ (fun l hl => rfl) ?_
          intro l hl
          rw [Nat.testBit_lor, hzero l hl, Bool.false_or]
        simp only [List.length_cons, masks_to_strings, hcong, hmts]
        rw [Nat.testBit_lt_two_pow hob, Nat.testBit_lor, Nat.testBit_two_pow_self,
          Bool.true_or]
        simp
    · -- c = '1'
      subst h1
      refine ⟨2 ^ rest.length ||| o', z', ?_, ?_, ?_, ?_⟩
      · have hred : stmGo (0, 0) ('1' :: rest) ('1' :: rest).length =
            stmGo (0 ||| 1 <<< rest.length, 0) rest rest.length := by
          simp [stmGo]
        rw [hred, stmGo_acc, hstm]
        simp [Except.map, Nat.one_shiftLeft]
      · exact Nat.or_lt_two_pow hpow (Nat.lt_trans hob hpow)
      · exact Nat.lt_trans hzb hpow
      · have hcong : masks_to_strings (2 ^ rest.length ||| o') z' rest.length =
            masks_to_strings o' z' rest.length := by
          refine masks_to_strings_congr rest.length _ _ _ _ ?_ (fun l hl => rfl)
          intro l hl
          rw [Nat.testBit_lor, hzero l hl, Bool.false_or]
        simp only [List.length_cons, masks_to_strings, hcong, hmts]
        rw [Nat.testBit_lt_two_pow hzb, Nat.testBit_lor, Nat.testBit_two_pow_self,
          Bool.true_or]
        simp
    · -- c = 'x'
      subst hx
      refine ⟨o', z', ?_, Nat.lt_trans hob hpow, Nat.lt_trans hzb hpow, ?_⟩
      · have hred : stmGo (0, 0) ('x' :: rest) ('x' :: rest).length =
            stmGo (0, 0) rest rest.length := by
          simp [stmGo]
        rw [hred]
        exact hstm
      · simp only [List.length_cons, masks_to_strings, hmts]
        rw [Nat.testBit_lt_two_pow hob, Nat.testBit_lt_two_pow hzb]
        simp

/-- C8 amended: the round trip masks_to_strings(string_to_masks(s), n)
= s holds for every mask string s of length n over the space-free
alphabet 0, 1, x (no uppercase X); a space in s is stripped by
string_to_masks, shifting every bit left of it, so strings with spaces
do not round-trip. -/
theorem masks_round_trip (s : List Char) (h : ∀ c ∈ s, c = '0' ∨ c = '1' ∨ c = 'x') :
    ∃ o z, string_to_masks s = .ok (o, z) ∧
      masks_to_strings o z s.length = .ok s := by
  have hfilter : s.filter (fun c => c ≠ ' ') = s := by
    rw [List.filter_eq_self]
    intro a ha
    rcases h a ha with h' | h' | h' <;> simp [h']
  obtain ⟨o, z, hstm, _, _, hmts⟩ := stm_round_trip s h
  refine ⟨o, z, ?_, hmts⟩
  unfold string_to_masks
  simp only [hfilter]
  exact hstm

/-- Witness for C8 at the concrete mask string "10x". -/
theorem masks_round_trip_witness :
    ∃ o z, string_to_masks ['1', '0', 'x'] = .ok (o, z) ∧
      masks_to_strings o z 3 = .ok ['1', '0', 'x'] :=
  masks_round_trip ['1', '0', 'x'] (by decide)

end M3
